/-
Verification of the AccountabilityBot schedule-management and check-in-relay
core (src/main.py) against its natural-language specification.

The Python source is shallowly embedded: the database tables become lists of
records, the APScheduler job table becomes a list of jobs keyed by job id,
module-level mutable globals (the bulletin-channel cache and the
user_id -> job id dict) become fields of an explicit state record, and every
handler becomes a pure state-transition function.  External collaborators
(Discord channel lookup, IANA zone resolution, the admin privilege check,
message-transport success) are parameters of a `Config` record or of the
operation.  A raised-and-uncaught Python exception is modelled as an
`Option String` error component carried next to the state reached at the
raise point (mutations performed before the raise persist, as in Python).
String operations are embedded at the character-list level (`pyStrip`,
`pyLower`, `pyInt`) so that every definition evaluates inside the kernel.
-/
import Mathlib

namespace AccBot

/-! # Definitions -/

/-! ## String primitives -/

/-- The regex class `\d`: a decimal digit `'0'..'9'` (code points 48..57). -/
def isDig (c : Char) : Bool :=
  48 ≤ c.toNat && c.toNat ≤ 57

/-- `valid_hhmm` from src/main.py:
`re.fullmatch(r"^(?:[01]\d|2[0-3]):[0-5]\d$", value) is not None`.
Character classes are embedded through code points:
'0' = 48, '1' = 49, '2' = 50, '3' = 51, '5' = 53, ':' = 58. -/
def valid_hhmm (s : String) : Bool :=
  match s.data with
  | [a, b, c, d, e] =>
      (((a.toNat == 48 || a.toNat == 49) && isDig b) ||
        (a.toNat == 50 && (48 ≤ b.toNat && b.toNat ≤ 51)))
      && c.toNat == 58
      && ((48 ≤ d.toNat && d.toNat ≤ 53) && isDig e)
  | _ => false

/-- Numeric value of a digit character (code point minus 48). -/
def digitVal (c : Char) : Nat := c.toNat - 48

/-- Spec-side reading of "matches 24-hour HH:MM format": exactly five
characters, a two-digit hour at most 23, a colon, and a two-digit minute at
most 59.  Written from the specification's words, to be compared with
`valid_hhmm` (which is compiled from the source regex). -/
def isHHMM24 (s : String) : Prop :=
  match s.data with
  | [a, b, c, d, e] =>
      isDig a = true ∧ isDig b = true ∧ c = ':' ∧ isDig d = true ∧
      isDig e = true ∧ 10 * digitVal a + digitVal b ≤ 23 ∧
      10 * digitVal d + digitVal e ≤ 59
  | _ => False

/-- Python `str.strip` whitespace (the ASCII fragment). -/
def isSpaceChar (c : Char) : Bool :=
  c == ' ' || c == '\t' || c == '\n' || c == '\r'

/-- Python `str.strip()`: drop whitespace from both ends. -/
def pyStrip (s : String) : String :=
  String.mk (((s.data.dropWhile isSpaceChar).reverse.dropWhile
    isSpaceChar).reverse)

/-- Python `str.lower()` (the ASCII fragment acted on by `Char.toLower`). -/
def pyLower (s : String) : String :=
  String.mk (s.data.map Char.toLower)

/-- Fold a digit list into the number it denotes. -/
def digitsToNat : List Char → Nat → Nat
  | [], acc => acc
  | c :: rest, acc => digitsToNat rest (acc * 10 + digitVal c)

/-- Python `int(s)` on the sign-and-decimal-digits fragment: `None` models a
raised `ValueError`. -/
def pyInt (s : String) : Option Int :=
  match s.data with
  | '-' :: rest =>
      if rest ≠ [] ∧ rest.all isDig then some (-(digitsToNat rest 0 : Int))
      else none
  | l =>
      if l ≠ [] ∧ l.all isDig then some ((digitsToNat l 0 : Nat) : Int)
      else none

/-- `str.split(":")` at the character level. -/
def splitColon : List Char → List (List Char)
  | [] => [[]]
  | c :: rest =>
      let r := splitColon rest
      if c == ':' then [] :: r
      else
        match r with
        | h :: t => (c :: h) :: t
        | [] => [[c]]

/-- `hour, minute = map(int, hhmm.split(":"))`: exactly two integer fields,
else a raised `ValueError` (modelled as `none`). -/
def parse_hhmm (s : String) : Option (Nat × Nat) :=
  match splitColon s.data with
  | [h, m] =>
      if h ≠ [] ∧ h.all isDig ∧ m ≠ [] ∧ m.all isDig then
        some (digitsToNat h 0, digitsToNat m 0)
      else none
  | _ => none

/-! ## Day-of-week normalisation (src/main.py `_norm_dow`) -/

/-- The alias dictionary from `_norm_dow`, in source order. -/
def dowAlias : List (String × String) :=
  [("monday", "mon"), ("tuesday", "tue"), ("wednesday", "wed"),
   ("thursday", "thu"), ("friday", "fri"), ("saturday", "sat"),
   ("sunday", "sun"),
   ("mon", "mon"), ("tue", "tue"), ("wed", "wed"), ("thu", "thu"),
   ("fri", "fri"), ("sat", "sat"), ("sun", "sun")]

/-- Python `dict.get`: first binding for the key, `None` when absent. -/
def dictGet (l : List (String × String)) (k : String) : Option String :=
  match l with
  | [] => none
  | (k', v) :: rest => if k = k' then some v else dictGet rest k

/-- Python `dict[k] = v` upsert for the settings table. -/
def dictSet (l : List (String × String)) (k v : String) :
    List (String × String) :=
  match l with
  | [] => [(k, v)]
  | (k', v') :: rest =>
      if k = k' then (k, v) :: rest else (k', v') :: dictSet rest k v

/-- `_norm_dow` from src/main.py: `None`/empty is falsy and maps to `None`;
otherwise strip, lowercase, and look the result up in the alias dict. -/
def norm_dow (d : Option String) : Option String :=
  match d with
  | none => none
  | some s =>
      if s = "" then none
      else dictGet dowAlias (pyLower (pyStrip s))

/-! ## Data model -/

/-- What `bot.get_channel` can return, as far as the source inspects it. -/
inductive ChannelKind
  | text
  | other
deriving DecidableEq, Repr

/-- Environment configuration and external collaborators: the default
timezone, which strings `ZoneInfo` accepts, and Discord's channel table. -/
structure Config where
  default_tz : String
  validZone : String → Bool
  channels : Int → Option ChannelKind

/-- A row of the `members` table (`approved` is the stored 0/1 integer). -/
structure MemberRow where
  user_id : Nat
  tz : String
  hhmm : String
  approved : Nat
  cadence : String
  dow : Option String
deriving DecidableEq, Repr

/-- The projection returned by `DB.get_member`: it does not expose the
cadence and dow columns. -/
structure MemberView where
  user_id : Nat
  tz : String
  hhmm : String
  approved : Nat
deriving DecidableEq, Repr

/-- A row of the append-only `checkins` table (timestamps abstracted). -/
structure Checkin where
  user_id : Nat
  content : String
  created_at_utc : Nat
deriving DecidableEq, Repr

/-- The fields of the `CronTrigger` built by `schedule_for_member`. -/
structure Trigger where
  hour : Nat
  minute : Nat
  tz : String
  day_of_week : Option String
deriving DecidableEq, Repr

/-- An APScheduler job: id, trigger and prompt recipient.  Python job ids are
the strings made of "dm_" followed by the user id; that format is injective,
so ids are embedded as the user id itself. -/
structure Job where
  id : Nat
  trigger : Trigger
  target : Nat
deriving DecidableEq, Repr

/-- The process state: the SQLite tables (members, checkins, settings), the
APScheduler job table, and the module-level mutable globals `user_jobs` and
`BULLETIN_CHANNEL_ID`. -/
structure BotState where
  members : List MemberRow
  checkins : List Checkin
  settings : List (String × String)
  jobs : List Job
  user_jobs : Nat → Option Nat
  bulletin_cached : Option String

/-! ## Database operations (class DB) -/

/-- `SELECT ... FROM members WHERE user_id=?`. -/
def findMember (s : BotState) (uid : Nat) : Option MemberRow :=
  s.members.find? (fun r => r.user_id == uid)

/-- `DB.get_member`: the four-column projection. -/
def get_member (s : BotState) (uid : Nat) : Option MemberView :=
  (findMember s uid).map (fun r => ⟨r.user_id, r.tz, r.hhmm, r.approved⟩)

/-- `DB.get_member_full`: all six columns. -/
def get_member_full (s : BotState) (uid : Nat) : Option MemberRow :=
  findMember s uid

/-- `DB.get_active_members_full` (`WHERE approved=1`). -/
def get_active_members_full (s : BotState) : List MemberRow :=
  s.members.filter (fun r => r.approved == 1)

/-- `UPDATE members SET ... WHERE user_id=?`: point update of matching rows. -/
def updateMember (s : BotState) (uid : Nat) (f : MemberRow → MemberRow) :
    BotState :=
  { s with members := s.members.map (fun r =>
      if r.user_id == uid then f r else r) }

/-- `DB.upsert_member`: insert, or on conflict update tz/hhmm/approved only;
on insert the cadence column takes its default 'daily' and dow NULL. -/
def upsert_member (s : BotState) (uid : Nat) (tz hhmm : String)
    (approved : Nat) : BotState :=
  match findMember s uid with
  | some _ => updateMember s uid (fun r =>
      { r with tz := tz, hhmm := hhmm, approved := approved })
  | none =>
      { s with members := s.members ++ [⟨uid, tz, hhmm, approved, "daily", none⟩] }

/-- `DB.set_member_time`. -/
def set_member_time (s : BotState) (uid : Nat) (hhmm : String) : BotState :=
  updateMember s uid (fun r => { r with hhmm := hhmm })

/-- `DB.set_member_tz`. -/
def set_member_tz (s : BotState) (uid : Nat) (tz : String) : BotState :=
  updateMember s uid (fun r => { r with tz := tz })

/-- `DB.set_member_cadence`. -/
def set_member_cadence (s : BotState) (uid : Nat) (cadence : String)
    (dow : Option String) : BotState :=
  updateMember s uid (fun r => { r with cadence := cadence, dow := dow })

/-- `DB.approve_member`: upsert of the approved flag; on first insert the
row takes DEFAULT_TZ and "08:00" (and column defaults cadence='daily',
dow NULL). -/
def approve_member (cfg : Config) (s : BotState) (uid : Nat)
    (approved : Nat) : BotState :=
  match findMember s uid with
  | some _ => updateMember s uid (fun r => { r with approved := approved })
  | none =>
      { s with members :=
          s.members ++ [⟨uid, cfg.default_tz, "08:00", approved, "daily", none⟩] }

/-- `DB.get_setting`. -/
def get_setting (s : BotState) (key : String) : Option String :=
  dictGet s.settings key

/-- `DB.set_setting` (`ON CONFLICT(key) DO UPDATE`). -/
def set_setting (s : BotState) (key value : String) : BotState :=
  { s with settings := dictSet s.settings key value }

/-- `DB.add_checkin`: append one row with the current UTC timestamp. -/
def add_checkin (s : BotState) (uid : Nat) (content : String) (now : Nat) :
    BotState :=
  { s with checkins := s.checkins ++ [⟨uid, content, now⟩] }

/-! ## Utilities over the state -/

/-- `ensure_zoneinfo`: the zone itself when `ZoneInfo` accepts it, else a
raised `ValueError`. -/
def ensure_zoneinfo (cfg : Config) (tz : String) : Except String String :=
  if cfg.validZone tz then Except.ok tz
  else Except.error "Invalid timezone"

/-- Python truthiness of the optional channel-id string: `None` and the empty
string are falsy. -/
def truthy (o : Option String) : Bool :=
  match o with
  | none => false
  | some v => v != ""

/-- The cache-refresh step of `get_bulletin_channel`: keep a truthy cached
global, otherwise adopt a truthy fresh settings value. -/
def effective_bulletin_id (settings : List (String × String))
    (cached : Option String) : Option String :=
  if truthy cached then cached
  else
    match dictGet settings "bulletin_channel_id" with
    | some v => if v != "" then some v else cached
    | none => cached

/-- The channel lookup of `get_bulletin_channel`, on the refreshed cache
value: `none` when the id is falsy, not an integer string (`int()`s
`ValueError` is caught), unknown to Discord, or not a text channel. -/
def resolve_bulletin_body (cfg : Config) (cached1 : Option String) :
    Option String × Option Int :=
  if truthy cached1 then
    match cached1 with
    | some str =>
        match pyInt str with
        | some n =>
            match cfg.channels n with
            | some ChannelKind.text => (cached1, some n)
            | _ => (cached1, none)
        | none => (cached1, none)
    | none => (cached1, none)
  else (cached1, none)

/-- `get_bulletin_channel`, split from the state threading: given the
settings table and the cached global, return the updated cache and the
resolved text-channel id.  It never raises. -/
def resolve_bulletin (cfg : Config) (settings : List (String × String))
    (cached : Option String) : Option String × Option Int :=
  resolve_bulletin_body cfg (effective_bulletin_id settings cached)

/-- `get_bulletin_channel` proper: thread the cache global through the state. -/
def get_bulletin_channel (cfg : Config) (s : BotState) :
    BotState × Option Int :=
  let r := resolve_bulletin cfg s.settings s.bulletin_cached
  ({ s with bulletin_cached := r.1 }, r.2)

/-! ## Schedule manager -/

/-- Python job id "dm_" ++ user id, embedded as the user id (see `Job`). -/
def jobId (uid : Nat) : Nat := uid

/-- `scheduler.remove_job` wrapped in try/except-pass: drop the job when
present, no-op otherwise. -/
def remove_job (jobs : List Job) (i : Nat) : List Job :=
  jobs.filter (fun j => j.id != i)

/-- `scheduler.get_job`-style lookup, used to model the `ConflictingIdError`
check performed by `scheduler.add_job`. -/
def lookupJob (jobs : List Job) (i : Nat) : Option Job :=
  jobs.find? (fun j => j.id == i)

/-- The zone resolution of `schedule_for_member`: the member's zone, falling
back to DEFAULT_TZ on `ValueError`; an invalid DEFAULT_TZ raises out. -/
def zone_or_default (cfg : Config) (tz : String) : Except String String :=
  match ensure_zoneinfo cfg tz with
  | Except.ok z => Except.ok z
  | Except.error _ => ensure_zoneinfo cfg cfg.default_tz

/-- The `day_of_week` field of the cron trigger: present only for weekly
cadence (`(cadence or "daily").lower() == "weekly"`), normalising
`dow or ""` and defaulting an unnormalisable day to "mon". -/
def cron_dow (cadence : String) (dow : Option String) : Option String :=
  if pyLower (if cadence = "" then "daily" else cadence) = "weekly" then
    some ((norm_dow (some (dow.getD ""))).getD "mon")
  else none

/-- `schedule_for_member`: cancel the job recorded for the member in
`user_jobs` (if any), parse the time, resolve the zone falling back to
DEFAULT_TZ on `ValueError`, build the cron trigger (weekly cadence adds a
day-of-week field, an unnormalisable day falls back to "mon"), and install
the new job under id dm_{user_id}.  The `Option String` component is a raised
exception: a time-parse `ValueError`, an invalid DEFAULT_TZ, a cron-field
range `ValueError` from the `CronTrigger` constructor (hour above 23 or
minute above 59), or apscheduler's `ConflictingIdError`; mutations made
before the raise persist in the returned state.  In Python `cadence` defaults to "daily" and `dow` to `None`;
call sites of the embedding pass those values explicitly.

The cancel phase is `sched_s1`: remove the job recorded for the member in
`user_jobs`, swallowing a failed removal (try/except pass). -/
def sched_s1 (s : BotState) (uid : Nat) : BotState :=
  match s.user_jobs uid with
  | some jid => { s with jobs := remove_job s.jobs jid }
  | none => s

def schedule_for_member (cfg : Config) (s : BotState) (uid : Nat)
    (tz hhmm : String) (cadence : String) (dow : Option String) :
    BotState × Option String :=
  match parse_hhmm hhmm with
  | none => (sched_s1 s uid, some "ValueError: bad hhmm")
  | some (hour, minute) =>
      match zone_or_default cfg tz with
      | Except.error e => (sched_s1 s uid, some e)
      | Except.ok z =>
          -- CronTrigger(**trig_kwargs) validates its field ranges at
          -- construction, before scheduler.add_job: an hour above 23 or a
          -- minute above 59 raises ValueError (day_of_week from cron_dow is
          -- always a valid name, so it cannot raise)
          if hour ≤ 23 ∧ minute ≤ 59 then
            match lookupJob (sched_s1 s uid).jobs (jobId uid) with
            | some _ => (sched_s1 s uid, some "ConflictingIdError")
            | none =>
                ({ sched_s1 s uid with
                    jobs := (sched_s1 s uid).jobs ++
                      [⟨jobId uid, ⟨hour, minute, z, cron_dow cadence dow⟩, uid⟩],
                    user_jobs := fun u =>
                      if u = uid then some (jobId uid)
                      else (sched_s1 s uid).user_jobs u },
                 none)
          else (sched_s1 s uid, some "ValueError: cron field out of range")

/-- The job-removal fragment shared verbatim by `leave` and `revoke`
(the spec's `unschedule(identity)`): cancel and forget the member's job if
present, no-op otherwise. -/
def unschedule_user (s : BotState) (uid : Nat) : BotState :=
  match s.user_jobs uid with
  | some jid =>
      { s with
          jobs := remove_job s.jobs jid,
          user_jobs := fun u => if u = uid then none else s.user_jobs u }
  | none => s

/-- The enumeration inside `reschedule_all`, one member at a time; a raised
exception stops the remaining enumeration (the loop body has no handler). -/
def reschedule_all_go (cfg : Config) :
    List MemberRow → BotState → BotState × Option String
  | [], s => (s, none)
  | m :: rest, s =>
      match schedule_for_member cfg s m.user_id m.tz m.hhmm m.cadence m.dow with
      | (s1, some e) => (s1, some e)
      | (s1, none) => reschedule_all_go cfg rest s1

/-- `reschedule_all`: schedule every approved member from its stored fields. -/
def reschedule_all (cfg : Config) (s : BotState) : BotState × Option String :=
  reschedule_all_go cfg (get_active_members_full s) s

/-! ## Check-in relay (`on_message`, DM branch) -/

/-- Observable message-sending effects of the DM handler.  A
`bulletinSend` is an attempt to post to the bulletin channel (the relay
attempt); a `dmReply` is a message back to the sender.  -/
inductive Effect
  | dmReply (text : String)
  | bulletinSend (author : String) (content : String)
deriving DecidableEq, Repr

/-- Result of the DM handler: state, emitted sends in order, and an
uncaught exception if one was raised. -/
structure MsgResult where
  state : BotState
  effects : List Effect
  raised : Option String

/-- The enrollment hint sent to non-members (abridged text). -/
def notEnrolledHint : String :=
  "You're not enrolled yet. Use /join in the server to opt into daily check-ins."

/-- The terminal notice when no bulletin channel is configured. -/
def recordedNotPosted : String :=
  "I recorded your check-in, but the bulletin channel isn't configured yet."

/-- The success acknowledgment. -/
def postedAck : String := "✅ Posted to the group bulletin."

/-- The transport-failure notice. -/
def postFailedNotice : String := "Sorry, I couldn't post to the bulletin channel."

/-- The relay stage of the DM branch, entered after the check-in row is
stored into `s1`: resolve the bulletin channel, stop with the
recorded-but-not-posted notice when unresolved, re-read the member, convert
the local-time footer (`ZoneInfo(member["tz"])` sits outside any handler, so
an unresolvable stored timezone raises here), then attempt the post and
acknowledge or report the transport failure. -/
def relay_after_store (cfg : Config) (s1 : BotState) (authorId : Nat)
    (authorName : String) (c : String) (relayOk : Bool) : MsgResult :=
  match (get_bulletin_channel cfg s1).2 with
  | none =>
      ⟨(get_bulletin_channel cfg s1).1,
       [Effect.dmReply recordedNotPosted], none⟩
  | some _ =>
      match get_member (get_bulletin_channel cfg s1).1 authorId with
      | none => ⟨(get_bulletin_channel cfg s1).1, [], some "TypeError"⟩
      | some m2 =>
          if cfg.validZone m2.tz then
            if relayOk then
              ⟨(get_bulletin_channel cfg s1).1,
               [Effect.bulletinSend authorName c, Effect.dmReply postedAck],
               none⟩
            else
              ⟨(get_bulletin_channel cfg s1).1,
               [Effect.bulletinSend authorName c,
                Effect.dmReply postFailedNotice], none⟩
          else ⟨(get_bulletin_channel cfg s1).1, [], some "ZoneInfoNotFoundError"⟩

/-- The DM branch of `on_message`.  `authorIsBot` is `message.author.bot`;
`relayOk` is whether `channel.send` succeeds at the transport level
(`HTTPException` otherwise). -/
def on_message_dm (cfg : Config) (s : BotState) (authorId : Nat)
    (authorIsBot : Bool) (authorName : String) (content : String)
    (now : Nat) (relayOk : Bool) : MsgResult :=
  if authorIsBot then ⟨s, [], none⟩
  else
    match get_member s authorId with
    | none => ⟨s, [Effect.dmReply notEnrolledHint], none⟩
    | some m =>
        if m.approved ≠ 1 then ⟨s, [Effect.dmReply notEnrolledHint], none⟩
        else
          if pyStrip content = "" then ⟨s, [], none⟩
          else
            relay_after_store cfg
              (add_checkin s authorId (pyStrip content) now) authorId
              authorName (pyStrip content) relayOk

/-! ## Command surface

Each slash command becomes a state transition returning the new state and an
uncaught exception if one was raised.  Ephemeral interaction replies carry no
state and are omitted.  The `admin` parameter is the outcome of `is_admin`
(a read-only predicate over Discord role data). -/

/-- `/settime`: validate, upsert-or-update the time, then reschedule from the
re-read `get_member` view.  The Python call site passes only (user_id, tz,
hhmm), so cadence and dow take the callee defaults "daily" and None. -/
def settime (cfg : Config) (s : BotState) (uid : Nat) (hhmm : String) :
    BotState × Option String :=
  if ¬ valid_hhmm hhmm then (s, none)
  else
    let s1 :=
      match get_member s uid with
      | none => upsert_member s uid cfg.default_tz hhmm 1
      | some _ => set_member_time s uid hhmm
    match get_member s1 uid with
    | none => (s1, some "TypeError")
    | some m => schedule_for_member cfg s1 m.user_id m.tz m.hhmm "daily" none

/-- `/settimezone`: validate the zone, upsert-or-update, reschedule (again
with the callee defaults for cadence and dow). -/
def settimezone (cfg : Config) (s : BotState) (uid : Nat) (tz : String) :
    BotState × Option String :=
  match ensure_zoneinfo cfg tz with
  | Except.error _ => (s, none)
  | Except.ok _ =>
      let s1 :=
        match get_member s uid with
        | none => upsert_member s uid tz "08:00" 1
        | some _ => set_member_tz s uid tz
      match get_member s1 uid with
      | none => (s1, some "TypeError")
      | some m => schedule_for_member cfg s1 m.user_id m.tz m.hhmm "daily" none

/-- `/setcadence`: validate the mode, require enrollment, set cadence
(preserving dow only when weekly), reschedule from the re-read full row. -/
def setcadence (cfg : Config) (s : BotState) (uid : Nat) (mode : String) :
    BotState × Option String :=
  let mode_l := pyLower (pyStrip mode)
  if ¬ (mode_l = "daily" ∨ mode_l = "weekly") then (s, none)
  else
    match get_member_full s uid with
    | none => (s, none)
    | some m =>
        if m.approved ≠ 1 then (s, none)
        else
          let s1 := set_member_cadence s uid mode_l
            (if mode_l = "weekly" then m.dow else none)
          match get_member_full s1 uid with
          | none => (s1, some "TypeError")
          | some m2 =>
              schedule_for_member cfg s1 m2.user_id m2.tz m2.hhmm m2.cadence m2.dow

/-- `/setweekly`: validate time and day, require enrollment, set time and
weekly cadence with the normalised day, reschedule from the re-read row. -/
def setweekly (cfg : Config) (s : BotState) (uid : Nat) (day hhmm : String) :
    BotState × Option String :=
  if ¬ valid_hhmm hhmm then (s, none)
  else
    match norm_dow (some day) with
    | none => (s, none)
    | some day_n =>
        match get_member_full s uid with
        | none => (s, none)
        | some m =>
            if m.approved ≠ 1 then (s, none)
            else
              let s1 := set_member_time s uid hhmm
              let s2 := set_member_cadence s1 uid "weekly" (some day_n)
              match get_member_full s2 uid with
              | none => (s2, some "TypeError")
              | some m2 =>
                  schedule_for_member cfg s2 m2.user_id m2.tz m2.hhmm
                    m2.cadence m2.dow

/-- `/join`: upsert with existing-or-default fields, force cadence daily,
schedule. -/
def join_cmd (cfg : Config) (s : BotState) (uid : Nat) :
    BotState × Option String :=
  let existing := get_member s uid
  let tz := match existing with
    | some m => m.tz
    | none => cfg.default_tz
  let hhmm := match existing with
    | some m => m.hhmm
    | none => "08:00"
  let s1 := upsert_member s uid tz hhmm 1
  let s2 := set_member_cadence s1 uid "daily" none
  schedule_for_member cfg s2 uid tz hhmm "daily" none

/-- `/leave`: no-op when not enrolled; else set approved=0 and unschedule. -/
def leave_cmd (cfg : Config) (s : BotState) (uid : Nat) :
    BotState × Option String :=
  match get_member s uid with
  | none => (s, none)
  | some m =>
      if m.approved ≠ 1 then (s, none)
      else (unschedule_user (approve_member cfg s uid 0) uid, none)

/-- `/approve` (admin): set approved=1 with defaults if new, reschedule from
the re-read view (callee defaults for cadence and dow, as in the source). -/
def approve_cmd (cfg : Config) (s : BotState) (admin : Bool) (uid : Nat) :
    BotState × Option String :=
  if ¬ admin then (s, none)
  else
    let s1 := approve_member cfg s uid 1
    match get_member s1 uid with
    | none => (s1, some "TypeError")
    | some m => schedule_for_member cfg s1 m.user_id m.tz m.hhmm "daily" none

/-- `/revoke` (admin): set approved=0, remove the scheduled job if any. -/
def revoke_cmd (cfg : Config) (s : BotState) (admin : Bool) (uid : Nat) :
    BotState × Option String :=
  if ¬ admin then (s, none)
  else (unschedule_user (approve_member cfg s uid 0) uid, none)

/-- `/setbulletin` (admin): persist the channel id and update the cache. -/
def setbulletin_cmd (s : BotState) (admin : Bool) (channelId : Int) :
    BotState × Option String :=
  if ¬ admin then (s, none)
  else
    let s1 := set_setting s "bulletin_channel_id" (toString channelId)
    ({ s1 with bulletin_cached := some (toString channelId) }, none)

/-! ## Operations, for whole-system frame properties -/

/-- Every state-touching operation of the program. -/
inductive Op
  | cSettime (uid : Nat) (hhmm : String)
  | cSettimezone (uid : Nat) (tz : String)
  | cSetcadence (uid : Nat) (mode : String)
  | cSetweekly (uid : Nat) (day : String) (hhmm : String)
  | cJoin (uid : Nat)
  | cLeave (uid : Nat)
  | cApprove (admin : Bool) (uid : Nat)
  | cRevoke (admin : Bool) (uid : Nat)
  | cSetbulletin (admin : Bool) (channelId : Int)
  | cDM (uid : Nat) (isBot : Bool) (name : String) (content : String)
      (now : Nat) (relayOk : Bool)
  | cRescheduleAll

/-- The state reached by one operation (exceptions and replies dropped). -/
def step (cfg : Config) (s : BotState) : Op → BotState
  | .cSettime uid hhmm => (settime cfg s uid hhmm).1
  | .cSettimezone uid tz => (settimezone cfg s uid tz).1
  | .cSetcadence uid mode => (setcadence cfg s uid mode).1
  | .cSetweekly uid day hhmm => (setweekly cfg s uid day hhmm).1
  | .cJoin uid => (join_cmd cfg s uid).1
  | .cLeave uid => (leave_cmd cfg s uid).1
  | .cApprove admin uid => (approve_cmd cfg s admin uid).1
  | .cRevoke admin uid => (revoke_cmd cfg s admin uid).1
  | .cSetbulletin admin ch => (setbulletin_cmd s admin ch).1
  | .cDM uid b n c t r => (on_message_dm cfg s uid b n c t r).state
  | .cRescheduleAll => (reschedule_all cfg s).1

/-! ## Schedule-manager operation sequences (for the trigger invariant) -/

/-- A schedule-manager level operation. -/
inductive SchedOp
  | sched (uid : Nat) (tz : String) (hhmm : String) (cadence : String)
      (dow : Option String)
  | unsched (uid : Nat)

/-- One schedule-manager operation (the state reached, also on a raise). -/
def stepSched (cfg : Config) (s : BotState) : SchedOp → BotState
  | .sched uid tz hhmm cadence dow =>
      (schedule_for_member cfg s uid tz hhmm cadence dow).1
  | .unsched uid => unschedule_user s uid

/-- Run a sequence of schedule-manager operations. -/
def runSched (cfg : Config) : List SchedOp → BotState → BotState
  | [], s => s
  | op :: rest, s => runSched cfg rest (stepSched cfg s op)

/-- Number of live jobs installed for a member identity. -/
def countJobs (s : BotState) (uid : Nat) : Nat :=
  (s.jobs.filter (fun j => j.id == jobId uid)).length

/-- Job ids in the scheduler are pairwise distinct (APScheduler enforces
this by raising `ConflictingIdError` on duplicates). -/
def jobsNodup (s : BotState) : Prop := (s.jobs.map Job.id).Nodup

/-- Whenever a member's job is installed, `user_jobs` records its id.  This
holds in every reachable state and is what makes the cancel-then-install
sequence supersede rather than conflict. -/
def coherent (s : BotState) : Prop :=
  ∀ u : Nat, (lookupJob s.jobs (jobId u)).isSome → s.user_jobs u = some (jobId u)

/-! ## Concrete instances used to evaluate the development -/

/-- A concrete configuration: Chicago default zone, two resolvable zones,
channel 42 a text channel. -/
def cfgW : Config :=
  ⟨"America/Chicago",
   fun z => z == "America/Chicago" || z == "Europe/London",
   fun n => if n == 42 then some ChannelKind.text else none⟩

/-- A weekly member (Friday 09:00) with their weekly trigger installed, as
`reschedule_all` would leave it at startup. -/
def s0C1 : BotState :=
  ⟨[⟨1, "America/Chicago", "09:00", 1, "weekly", some "fri"⟩], [], [],
   [⟨1, ⟨9, 0, "America/Chicago", some "fri"⟩, 1⟩],
   fun u => if u = 1 then some 1 else none, none⟩

/-- A startup state whose first approved member has a corrupted stored time
and whose second is fully valid. -/
def sC2 : BotState :=
  ⟨[⟨1, "America/Chicago", "bad", 1, "daily", none⟩,
    ⟨2, "America/Chicago", "08:00", 1, "daily", none⟩],
   [], [], [], fun _ => none, none⟩

/-- Like `sC2`, but the first member's stored time parses and is out of the
cron field range (hour 99): `CronTrigger` raises at construction. -/
def sC2b : BotState :=
  ⟨[⟨1, "America/Chicago", "99:00", 1, "daily", none⟩,
    ⟨2, "America/Chicago", "08:00", 1, "daily", none⟩],
   [], [], [], fun _ => none, none⟩

/-- A startup state whose first approved member has an invalid timezone and
whose second is fully valid. -/
def sW2 : BotState :=
  ⟨[⟨1, "Not/AZone", "07:00", 1, "daily", none⟩,
    ⟨2, "Europe/London", "08:00", 1, "weekly", some "fri"⟩],
   [], [], [], fun _ => none, none⟩

/-- A state with one approved member, no bulletin channel configured. -/
def sApproved : BotState :=
  ⟨[⟨5, "Europe/London", "21:00", 1, "daily", none⟩], [], [], [],
   fun _ => none, none⟩

/-- A state with one approved member whose stored timezone is invalid, and a
configured, resolvable bulletin channel (42). -/
def sBadTz : BotState :=
  ⟨[⟨5, "Mars/Olympus", "21:00", 1, "daily", none⟩], [],
   [("bulletin_channel_id", "42")], [], fun _ => none, none⟩

/-- A state with one revoked (approved=0) member. -/
def sRevoked : BotState :=
  ⟨[⟨5, "Europe/London", "21:00", 0, "daily", none⟩], [], [], [],
   fun _ => none, none⟩

/-! # Theorems -/

theorem char_toNat_inj {a b : Char} (h : a.toNat = b.toNat) : a = b := by
  have ha := Char.ofNat_toNat a
  have hb := Char.ofNat_toNat b
  rw [← ha, ← hb, h]

theorem char_eq_colon_iff (c : Char) : c = ':' ↔ c.toNat = 58 := by
  constructor
  · intro h; rw [h]; rfl
  · intro h; exact char_toNat_inj h

theorem dictGet_eq_none_of_not_mem (l : List (String × String)) (k : String)
    (h : k ∉ l.map Prod.fst) : dictGet l k = none := by
  induction l with
  | nil => rfl
  | cons p rest ih =>
      simp only [List.map_cons, List.mem_cons] at h
      push_neg at h
      simp only [dictGet, if_neg h.1]
      exact ih h.2

/-- C6: the time validator accepts exactly the 24-hour HH:MM strings, and
rejects everything else; concretely "07:30" and "23:59" validate true while
"7:30" and "24:00" validate false. -/
theorem valid_hhmm_characterisation :
    (∀ s : String, valid_hhmm s = true ↔ isHHMM24 s) ∧
    valid_hhmm "07:30" = true ∧ valid_hhmm "23:59" = true ∧
    valid_hhmm "7:30" = false ∧ valid_hhmm "24:00" = false := by
  refine ⟨fun s => ?_, by decide, by decide, by decide, by decide⟩
  unfold valid_hhmm isHHMM24
  rcases s.data with _ | ⟨a, _ | ⟨b, _ | ⟨c, _ | ⟨d, _ | ⟨e, _ | ⟨f, l⟩⟩⟩⟩⟩⟩ <;>
    simp only [Bool.and_eq_true, Bool.or_eq_true, beq_iff_eq,
      decide_eq_true_eq, char_eq_colon_iff, isDig, digitVal]
  · simp
  · simp
  · simp
  · simp
  · simp
  · omega
  · simp

/-- C7: the day-of-week normaliser sends "mon", "monday" and "MONDAY" to the
same canonical value, and sends every input whose stripped lower-cased form is
not a recognised day name (and the absent input) to `none`. -/
theorem norm_dow_characterisation :
    norm_dow (some "mon") = some "mon" ∧
    norm_dow (some "monday") = some "mon" ∧
    norm_dow (some "MONDAY") = some "mon" ∧
    norm_dow none = none ∧
    (∀ s : String, pyLower (pyStrip s) ∉ dowAlias.map Prod.fst →
      norm_dow (some s) = none) := by
  refine ⟨by decide, by decide, by decide, rfl, fun s h => ?_⟩
  unfold norm_dow
  by_cases hs : s = ""
  · simp [hs]
  · simp only [if_neg hs]
    exact dictGet_eq_none_of_not_mem _ _ h

/-- Closed witness for the conditional part of `norm_dow_characterisation`. -/
theorem norm_dow_characterisation_witness :
    norm_dow (some "frippery") = none :=
  norm_dow_characterisation.2.2.2.2 "frippery" (by decide)

theorem resolve_bulletin_body_fst (cfg : Config) (c1 : Option String) :
    (resolve_bulletin_body cfg c1).1 = c1 := by
  unfold resolve_bulletin_body
  split
  · split
    · split
      · split <;> rfl
      · rfl
    · rfl
  · rfl

theorem resolve_bulletin_fst (cfg : Config) (settings : List (String × String))
    (cached : Option String) :
    (resolve_bulletin cfg settings cached).1 =
      effective_bulletin_id settings cached :=
  resolve_bulletin_body_fst cfg (effective_bulletin_id settings cached)

/-- C10: when the configured bulletin-channel identity (the cached global,
refreshed from settings when falsy) is not a decimal integer string, the
resolver returns no channel — `int()`s `ValueError` is caught — so the
check-in pipeline treats a malformed configured identity exactly like an
unconfigured one. -/
theorem resolve_bulletin_malformed (cfg : Config)
    (settings : List (String × String)) (cached : Option String)
    (idStr : String)
    (hid : (resolve_bulletin cfg settings cached).1 = some idStr)
    (hbad : pyInt idStr = none) :
    (resolve_bulletin cfg settings cached).2 = none := by
  rw [resolve_bulletin_fst] at hid
  unfold resolve_bulletin
  rw [hid]
  unfold resolve_bulletin_body
  by_cases h : truthy (some idStr) = true
  · simp only [h, if_true, hbad]
  · simp only [Bool.not_eq_true] at h
    simp only [h, Bool.false_eq_true, if_false]

/-- Closed witness for `resolve_bulletin_malformed`: a non-numeric configured
channel id resolves to no channel. -/
theorem resolve_bulletin_malformed_witness :
    (resolve_bulletin cfgW [("bulletin_channel_id", "oops")] none).2 = none :=
  resolve_bulletin_malformed cfgW [("bulletin_channel_id", "oops")] none
    "oops" (by decide) (by decide)

theorem get_bulletin_channel_members (cfg : Config) (s : BotState) :
    (get_bulletin_channel cfg s).1.members = s.members := rfl

theorem get_bulletin_channel_checkins (cfg : Config) (s : BotState) :
    (get_bulletin_channel cfg s).1.checkins = s.checkins := rfl

theorem get_bulletin_channel_snd (cfg : Config) (s : BotState) :
    (get_bulletin_channel cfg s).2 =
      (resolve_bulletin cfg s.settings s.bulletin_cached).2 := rfl

theorem get_member_gbc (cfg : Config) (s : BotState) (uid : Nat) :
    get_member (get_bulletin_channel cfg s).1 uid = get_member s uid := rfl

theorem get_member_add_checkin (s : BotState) (uid u2 : Nat) (c : String)
    (t : Nat) : get_member (add_checkin s u2 c t) uid = get_member s uid := rfl

/-- C4: a DM from a sender who is not an enrolled, approved member changes no
state (no check-in row, no relay attempt) and only sends the enrollment
hint; a DM from an approved member that is empty after trimming is discarded
silently, with no state change and no sends at all. -/
theorem dm_filtering (cfg : Config) (s : BotState) (uid : Nat)
    (name content : String) (now : Nat) (relayOk : Bool) :
    ((get_member s uid = none ∨
        (∃ v, get_member s uid = some v ∧ v.approved ≠ 1)) →
      on_message_dm cfg s uid false name content now relayOk =
        ⟨s, [Effect.dmReply notEnrolledHint], none⟩) ∧
    ((∃ v, get_member s uid = some v ∧ v.approved = 1) →
      pyStrip content = "" →
      on_message_dm cfg s uid false name content now relayOk =
        ⟨s, [], none⟩) := by
  constructor
  · intro h
    unfold on_message_dm
    rcases h with hm | ⟨v, hm, hv⟩
    · rw [hm]
      simp
    · rw [hm]
      simp [hv]
  · rintro ⟨v, hm, hv⟩ hc
    unfold on_message_dm
    rw [hm]
    simp [hv, hc]

/-- Closed witness for `dm_filtering`: an unknown sender gets the hint and
leaves no row; an approved member's whitespace DM is dropped silently. -/
theorem dm_filtering_witness :
    (on_message_dm cfgW sApproved 9 false "n" "hello" 0 true =
      ⟨sApproved, [Effect.dmReply notEnrolledHint], none⟩) ∧
    (on_message_dm cfgW sApproved 5 false "n" "   " 0 true =
      ⟨sApproved, [], none⟩) :=
  ⟨(dm_filtering cfgW sApproved 9 "n" "hello" 0 true).1 (Or.inl (by decide)),
   (dm_filtering cfgW sApproved 5 "n" "   " 0 true).2
     ⟨⟨5, "Europe/London", "21:00", 1⟩, by decide, by decide⟩ (by decide)⟩

/-- C5: a non-empty DM from an approved member when the bulletin channel does
not resolve (neither from the cached global nor from a fresh settings lookup)
appends exactly one check-in row, makes zero relay attempts, and informs the
sender the check-in was recorded but not posted; nothing is raised. -/
theorem dm_no_channel (cfg : Config) (s : BotState) (uid : Nat)
    (name content : String) (now : Nat) (relayOk : Bool) (v : MemberView)
    (hm : get_member s uid = some v) (ha : v.approved = 1)
    (hc : pyStrip content ≠ "")
    (hch : (resolve_bulletin cfg s.settings s.bulletin_cached).2 = none) :
    (on_message_dm cfg s uid false name content now relayOk).state.checkins
        = s.checkins ++ [⟨uid, pyStrip content, now⟩] ∧
    (on_message_dm cfg s uid false name content now relayOk).effects
        = [Effect.dmReply recordedNotPosted] ∧
    (on_message_dm cfg s uid false name content now relayOk).raised = none := by
  have hch' : (get_bulletin_channel cfg
      (add_checkin s uid (pyStrip content) now)).2 = none := hch
  unfold on_message_dm
  rw [hm]
  simp only [ha, ne_eq, not_true_eq_false, if_false, Bool.false_eq_true,
    if_neg hc]
  unfold relay_after_store
  rw [hch']
  exact ⟨rfl, rfl, rfl⟩

/-- Closed witness for `dm_no_channel`. -/
theorem dm_no_channel_witness :
    (on_message_dm cfgW sApproved 5 false "n" " did my reps " 3 true).state.checkins
        = sApproved.checkins ++ [⟨5, "did my reps", 3⟩] ∧
    (on_message_dm cfgW sApproved 5 false "n" " did my reps " 3 true).effects
        = [Effect.dmReply recordedNotPosted] ∧
    (on_message_dm cfgW sApproved 5 false "n" " did my reps " 3 true).raised
        = none := by
  have h := dm_no_channel cfgW sApproved 5 "n" " did my reps " 3 true
    ⟨5, "Europe/London", "21:00", 1⟩ (by decide) (by decide) (by decide)
    (by decide)
  exact ⟨by rw [h.1]; decide, h.2.1, h.2.2⟩

/-- C9: a non-empty DM from an approved member whose stored timezone does not
resolve, when the bulletin channel does resolve, still appends the check-in
row, but the local-time footer conversion raises an uncaught error before
any send: no bulletin post is attempted and the sender receives neither an
acknowledgment nor a failure notice. -/
theorem dm_invalid_tz_raises (cfg : Config) (s : BotState) (uid : Nat)
    (name content : String) (now : Nat) (relayOk : Bool) (v : MemberView)
    (hm : get_member s uid = some v) (ha : v.approved = 1)
    (htz : cfg.validZone v.tz = false)
    (hc : pyStrip content ≠ "")
    (hch : (resolve_bulletin cfg s.settings s.bulletin_cached).2.isSome) :
    (on_message_dm cfg s uid false name content now relayOk).state.checkins
        = s.checkins ++ [⟨uid, pyStrip content, now⟩] ∧
    (on_message_dm cfg s uid false name content now relayOk).effects = [] ∧
    (on_message_dm cfg s uid false name content now relayOk).raised
        = some "ZoneInfoNotFoundError" := by
  obtain ⟨ch, hch'⟩ := Option.isSome_iff_exists.mp hch
  have hch2 : (get_bulletin_channel cfg
      (add_checkin s uid (pyStrip content) now)).2 = some ch := hch'
  have hm2 : get_member (get_bulletin_channel cfg
      (add_checkin s uid (pyStrip content) now)).1 uid = some v := hm
  unfold on_message_dm
  rw [hm]
  simp only [ha, ne_eq, not_true_eq_false, if_false, Bool.false_eq_true,
    if_neg hc]
  unfold relay_after_store
  rw [hch2]
  dsimp only
  rw [hm2]
  dsimp only
  rw [if_neg (show ¬ (cfg.validZone v.tz = true) by simp [htz])]
  exact ⟨rfl, rfl, rfl⟩

/-- Closed witness for `dm_invalid_tz_raises`. -/
theorem dm_invalid_tz_raises_witness :
    (on_message_dm cfgW sBadTz 5 false "n" "done" 7 true).state.checkins
        = sBadTz.checkins ++ [⟨5, "done", 7⟩] ∧
    (on_message_dm cfgW sBadTz 5 false "n" "done" 7 true).effects = [] ∧
    (on_message_dm cfgW sBadTz 5 false "n" "done" 7 true).raised
        = some "ZoneInfoNotFoundError" := by
  have h := dm_invalid_tz_raises cfgW sBadTz 5 "n" "done" 7 true
    ⟨5, "Mars/Olympus", "21:00", 1⟩ (by decide) (by decide) (by decide)
    (by decide) (by decide)
  exact ⟨by rw [h.1]; decide, h.2.1, h.2.2⟩

/-- C1 (code-bug evidence): starting from a stored weekly member (Friday
09:00) with their weekly trigger installed, `/settime 10:00` succeeds and
leaves the stored row weekly on Friday, yet the trigger it installs is a
daily one (no day-of-week): the call site passes only the re-read tz and
time, so cadence and day come from the callee defaults, not from the
freshly-read stored state.  Restarting (a fresh scheduler plus
`reschedule_all` over the same stored state) reinstalls the weekly Friday
trigger, contradicting the trigger `settime` just installed. -/
theorem settime_weekly_code_bug :
    (settime cfgW s0C1 1 "10:00").2 = none ∧
    get_member_full (settime cfgW s0C1 1 "10:00").1 1 =
      some ⟨1, "America/Chicago", "10:00", 1, "weekly", some "fri"⟩ ∧
    lookupJob (settime cfgW s0C1 1 "10:00").1.jobs (jobId 1) =
      some ⟨1, ⟨10, 0, "America/Chicago", none⟩, 1⟩ ∧
    lookupJob (reschedule_all cfgW
        { (settime cfgW s0C1 1 "10:00").1 with
            jobs := [], user_jobs := fun _ => none }).1.jobs (jobId 1) =
      some ⟨1, ⟨10, 0, "America/Chicago", some "fri"⟩, 1⟩ := by
  refine ⟨by decide, by decide, by decide, by decide⟩

/-! ### Check-in frame lemmas: no operation but `add_checkin` touches the log -/

theorem updateMember_checkins (s : BotState) (uid : Nat)
    (f : MemberRow → MemberRow) : (updateMember s uid f).checkins = s.checkins :=
  rfl

theorem upsert_member_checkins (s : BotState) (uid : Nat) (tz hhmm : String)
    (ap : Nat) : (upsert_member s uid tz hhmm ap).checkins = s.checkins := by
  unfold upsert_member
  split <;> rfl

theorem approve_member_checkins (cfg : Config) (s : BotState) (uid ap : Nat) :
    (approve_member cfg s uid ap).checkins = s.checkins := by
  unfold approve_member
  split <;> rfl

theorem sched_s1_checkins (s : BotState) (uid : Nat) :
    (sched_s1 s uid).checkins = s.checkins := by
  unfold sched_s1
  split <;> rfl

theorem schedule_for_member_checkins (cfg : Config) (s : BotState) (uid : Nat)
    (tz hhmm cadence : String) (dow : Option String) :
    (schedule_for_member cfg s uid tz hhmm cadence dow).1.checkins
      = s.checkins := by
  unfold schedule_for_member
  repeat' split
  all_goals simp [sched_s1_checkins]

theorem unschedule_user_checkins (s : BotState) (uid : Nat) :
    (unschedule_user s uid).checkins = s.checkins := by
  unfold unschedule_user
  split <;> rfl

theorem reschedule_all_go_checkins (cfg : Config) (ms : List MemberRow) :
    ∀ s : BotState, (reschedule_all_go cfg ms s).1.checkins = s.checkins := by
  induction ms with
  | nil => intro s; rfl
  | cons m rest ih =>
      intro s
      unfold reschedule_all_go
      have hs := schedule_for_member_checkins cfg s m.user_id m.tz m.hhmm
        m.cadence m.dow
      rcases h : schedule_for_member cfg s m.user_id m.tz m.hhmm m.cadence m.dow
        with ⟨s1, e⟩
      rw [h] at hs
      cases e with
      | none => simpa [ih s1] using hs
      | some err => exact hs

theorem reschedule_all_checkins (cfg : Config) (s : BotState) :
    (reschedule_all cfg s).1.checkins = s.checkins :=
  reschedule_all_go_checkins cfg (get_active_members_full s) s

theorem relay_after_store_checkins (cfg : Config) (s1 : BotState)
    (a : Nat) (n c : String) (r : Bool) :
    (relay_after_store cfg s1 a n c r).state.checkins = s1.checkins := by
  unfold relay_after_store
  repeat' split
  all_goals rfl

theorem on_message_dm_checkins (cfg : Config) (s : BotState) (uid : Nat)
    (b : Bool) (n c : String) (t : Nat) (r : Bool) :
    (on_message_dm cfg s uid b n c t r).state.checkins = s.checkins ∨
    (on_message_dm cfg s uid b n c t r).state.checkins
      = s.checkins ++ [⟨uid, pyStrip c, t⟩] := by
  unfold on_message_dm
  split
  · left; rfl
  · split
    · left; rfl
    · split
      · left; rfl
      · split
        · left; rfl
        · right
          rw [relay_after_store_checkins]
          rfl

theorem settime_checkins (cfg : Config) (s : BotState) (uid : Nat)
    (hhmm : String) : (settime cfg s uid hhmm).1.checkins = s.checkins := by
  unfold settime
  dsimp only
  repeat' split
  all_goals simp [schedule_for_member_checkins, upsert_member_checkins,
    set_member_time, updateMember_checkins]

theorem settimezone_checkins (cfg : Config) (s : BotState) (uid : Nat)
    (tz : String) : (settimezone cfg s uid tz).1.checkins = s.checkins := by
  unfold settimezone
  dsimp only
  repeat' split
  all_goals simp [schedule_for_member_checkins, upsert_member_checkins,
    set_member_tz, updateMember_checkins]

theorem setcadence_checkins (cfg : Config) (s : BotState) (uid : Nat)
    (mode : String) : (setcadence cfg s uid mode).1.checkins = s.checkins := by
  unfold setcadence
  dsimp only
  repeat' split
  all_goals simp [schedule_for_member_checkins, set_member_cadence,
    updateMember_checkins]

theorem setweekly_checkins (cfg : Config) (s : BotState) (uid : Nat)
    (day hhmm : String) :
    (setweekly cfg s uid day hhmm).1.checkins = s.checkins := by
  unfold setweekly
  dsimp only
  repeat' split
  all_goals simp [schedule_for_member_checkins, set_member_cadence,
    set_member_time, updateMember_checkins]

theorem join_cmd_checkins (cfg : Config) (s : BotState) (uid : Nat) :
    (join_cmd cfg s uid).1.checkins = s.checkins := by
  unfold join_cmd
  dsimp only
  simp [schedule_for_member_checkins, set_member_cadence,
    upsert_member_checkins, updateMember_checkins]

theorem leave_cmd_checkins (cfg : Config) (s : BotState) (uid : Nat) :
    (leave_cmd cfg s uid).1.checkins = s.checkins := by
  unfold leave_cmd
  repeat' split
  all_goals simp [unschedule_user_checkins, approve_member_checkins]

theorem approve_cmd_checkins (cfg : Config) (s : BotState) (admin : Bool)
    (uid : Nat) : (approve_cmd cfg s admin uid).1.checkins = s.checkins := by
  unfold approve_cmd
  dsimp only
  repeat' split
  all_goals simp [schedule_for_member_checkins, approve_member_checkins]

theorem revoke_cmd_checkins (cfg : Config) (s : BotState) (admin : Bool)
    (uid : Nat) : (revoke_cmd cfg s admin uid).1.checkins = s.checkins := by
  unfold revoke_cmd
  split
  · rfl
  · simp [unschedule_user_checkins, approve_member_checkins]

theorem setbulletin_cmd_checkins (s : BotState) (admin : Bool) (ch : Int) :
    (setbulletin_cmd s admin ch).1.checkins = s.checkins := by
  unfold setbulletin_cmd
  split <;> rfl

/-! ### Revoke lemmas -/

theorem approve_member_user_jobs (cfg : Config) (s : BotState) (uid ap : Nat) :
    (approve_member cfg s uid ap).user_jobs = s.user_jobs := by
  unfold approve_member
  split <;> rfl

theorem approve_member_jobs (cfg : Config) (s : BotState) (uid ap : Nat) :
    (approve_member cfg s uid ap).jobs = s.jobs := by
  unfold approve_member
  split <;> rfl

theorem lookupJob_remove (jobs : List Job) (i : Nat) :
    lookupJob (remove_job jobs i) i = none := by
  unfold lookupJob remove_job
  rw [List.find?_eq_none]
  intro j hj
  have hmem := List.mem_filter.mp hj
  simp only [bne_iff_ne, ne_eq] at hmem
  simp [hmem.2]

theorem find?_map_update (ms : List MemberRow) (uid : Nat)
    (f : MemberRow → MemberRow) (hf : ∀ r, (f r).user_id = r.user_id) :
    (ms.map (fun r => if r.user_id == uid then f r else r)).find?
        (fun r => r.user_id == uid)
      = (ms.find? (fun r => r.user_id == uid)).map f := by
  induction ms with
  | nil => rfl
  | cons r rest ih =>
      by_cases h : r.user_id = uid
      · simp [List.find?_cons_of_pos, h, hf]
      · simp only [List.map_cons]
        rw [if_neg (by simp [h])]
        rw [List.find?_cons_of_neg _ (by simp [h]),
          List.find?_cons_of_neg _ (by simp [h])]
        exact ih

theorem get_member_approve_member (cfg : Config) (s : BotState)
    (uid ap : Nat) :
    ∃ v, get_member (approve_member cfg s uid ap) uid = some v ∧
      v.approved = ap := by
  cases h : findMember s uid with
  | some r =>
      refine ⟨⟨r.user_id, r.tz, r.hhmm, ap⟩, ?_, rfl⟩
      unfold approve_member
      rw [h]
      dsimp only
      unfold get_member findMember updateMember
      dsimp only
      rw [find?_map_update s.members uid
        (fun r => { r with approved := ap }) (fun r => rfl)]
      unfold findMember at h
      rw [h]
      rfl
  | none =>
      refine ⟨⟨uid, cfg.default_tz, "08:00", ap⟩, ?_, rfl⟩
      unfold approve_member
      rw [h]
      dsimp only
      unfold get_member findMember
      unfold findMember at h
      rw [List.find?_append, h]
      simp

/-- C8: (a) revoking a member who has an active trigger cancels that trigger,
removes the identity's `user_jobs` entry, sets approved to 0, and leaves the
check-in log unchanged; (b) the check-in log is append-only under every
operation of the program: each operation's resulting log is the prior log
plus zero or more new rows. -/
theorem revoke_removes_trigger_keeps_checkins (cfg : Config) (s : BotState)
    (uid jid : Nat) (hj : s.user_jobs uid = some jid) :
    (lookupJob (revoke_cmd cfg s true uid).1.jobs jid = none ∧
     (revoke_cmd cfg s true uid).1.user_jobs uid = none ∧
     (∃ v, get_member (revoke_cmd cfg s true uid).1 uid = some v ∧
        v.approved = 0) ∧
     (revoke_cmd cfg s true uid).1.checkins = s.checkins) ∧
    (∀ op : Op, ∃ extra, (step cfg s op).checkins = s.checkins ++ extra) := by
  constructor
  · have hs1 : revoke_cmd cfg s true uid
        = (unschedule_user (approve_member cfg s uid 0) uid, none) := by
      unfold revoke_cmd
      rw [if_neg (by simp)]
    rw [hs1]
    have huj : (approve_member cfg s uid 0).user_jobs uid = some jid := by
      rw [approve_member_user_jobs]; exact hj
    have hun : unschedule_user (approve_member cfg s uid 0) uid
        = { approve_member cfg s uid 0 with
            jobs := remove_job (approve_member cfg s uid 0).jobs jid,
            user_jobs := fun u =>
              if u = uid then none
              else (approve_member cfg s uid 0).user_jobs u } := by
      unfold unschedule_user
      rw [huj]
    rw [hun]
    refine ⟨lookupJob_remove _ _, by simp, ?_, ?_⟩
    · exact get_member_approve_member cfg s uid 0
    · rw [show ({ approve_member cfg s uid 0 with
            jobs := remove_job (approve_member cfg s uid 0).jobs jid,
            user_jobs := fun u =>
              if u = uid then none
              else (approve_member cfg s uid 0).user_jobs u } : BotState).checkins
          = (approve_member cfg s uid 0).checkins from rfl]
      exact approve_member_checkins cfg s uid 0
  · intro op
    cases op with
    | cSettime uid hhmm => exact ⟨[], by rw [step, settime_checkins]; simp⟩
    | cSettimezone uid tz =>
        exact ⟨[], by rw [step, settimezone_checkins]; simp⟩
    | cSetcadence uid mode =>
        exact ⟨[], by rw [step, setcadence_checkins]; simp⟩
    | cSetweekly uid day hhmm =>
        exact ⟨[], by rw [step, setweekly_checkins]; simp⟩
    | cJoin uid => exact ⟨[], by rw [step, join_cmd_checkins]; simp⟩
    | cLeave uid => exact ⟨[], by rw [step, leave_cmd_checkins]; simp⟩
    | cApprove admin uid =>
        exact ⟨[], by rw [step, approve_cmd_checkins]; simp⟩
    | cRevoke admin uid =>
        exact ⟨[], by rw [step, revoke_cmd_checkins]; simp⟩
    | cSetbulletin admin ch =>
        exact ⟨[], by rw [step, setbulletin_cmd_checkins]; simp⟩
    | cDM uid b n c t r =>
        rcases on_message_dm_checkins cfg s uid b n c t r with h | h
        · exact ⟨[], by rw [step, h]; simp⟩
        · exact ⟨[⟨uid, pyStrip c, t⟩], by rw [step, h]⟩
    | cRescheduleAll => exact ⟨[], by rw [step, reschedule_all_checkins]; simp⟩

/-- Closed witness for `revoke_removes_trigger_keeps_checkins`, on a state
with an installed trigger and an existing check-in row. -/
theorem revoke_removes_trigger_keeps_checkins_witness :
    (lookupJob (revoke_cmd cfgW
        { s0C1 with checkins := [⟨1, "done", 0⟩] } true 1).1.jobs 1 = none ∧
     (revoke_cmd cfgW { s0C1 with checkins := [⟨1, "done", 0⟩] } true 1).1.user_jobs 1
        = none ∧
     (∃ v, get_member (revoke_cmd cfgW
        { s0C1 with checkins := [⟨1, "done", 0⟩] } true 1).1 1 = some v ∧
        v.approved = 0) ∧
     (revoke_cmd cfgW { s0C1 with checkins := [⟨1, "done", 0⟩] } true 1).1.checkins
        = ({ s0C1 with checkins := [⟨1, "done", 0⟩] } : BotState).checkins) ∧
    (∀ op : Op, ∃ extra,
      (step cfgW { s0C1 with checkins := [⟨1, "done", 0⟩] } op).checkins
        = ({ s0C1 with checkins := [⟨1, "done", 0⟩] } : BotState).checkins ++ extra) :=
  revoke_removes_trigger_keeps_checkins cfgW
    { s0C1 with checkins := [⟨1, "done", 0⟩] } 1 1 (by decide)

/-! ### Schedule-manager invariant lemmas (claim C3) -/

theorem sched_s1_user_jobs (s : BotState) (uid : Nat) :
    (sched_s1 s uid).user_jobs = s.user_jobs := by
  unfold sched_s1
  split <;> rfl

theorem lookupJob_none_of_filter (jobs : List Job) (i k : Nat)
    (h : lookupJob jobs i = none) :
    lookupJob (remove_job jobs k) i = none := by
  rw [lookupJob, List.find?_eq_none] at h ⊢
  intro j hj
  exact h j (List.mem_of_mem_filter hj)

theorem lookupJob_isSome_of_filter (jobs : List Job) (i k : Nat)
    (h : (lookupJob (remove_job jobs k) i).isSome) :
    (lookupJob jobs i).isSome := by
  rw [lookupJob, List.find?_isSome] at h ⊢
  obtain ⟨j, hj, hp⟩ := h
  exact ⟨j, List.mem_of_mem_filter hj, hp⟩

theorem not_mem_of_lookupJob_none (jobs : List Job) (i : Nat)
    (h : lookupJob jobs i = none) : i ∉ jobs.map Job.id := by
  rw [lookupJob, List.find?_eq_none] at h
  intro hmem
  obtain ⟨j, hj, hid⟩ := List.mem_map.mp hmem
  exact h j hj (by simp [hid])

theorem filter_id_nil_of_lookup_none (jobs : List Job) (i : Nat)
    (h : lookupJob jobs i = none) :
    jobs.filter (fun j => j.id == i) = [] := by
  rw [lookupJob, List.find?_eq_none] at h
  exact List.filter_eq_nil_iff.mpr h

theorem jobsNodup_sched_s1 (s : BotState) (uid : Nat) (h : jobsNodup s) :
    jobsNodup (sched_s1 s uid) := by
  unfold sched_s1
  split
  · exact h.sublist (List.Sublist.map Job.id (List.filter_sublist _))
  · exact h

theorem coherent_sched_s1 (s : BotState) (uid : Nat) (h : coherent s) :
    coherent (sched_s1 s uid) := by
  intro u hu
  have h2 : (lookupJob s.jobs (jobId u)).isSome := by
    unfold sched_s1 at hu
    rcases hj : s.user_jobs uid with _ | jid <;> rw [hj] at hu
    · exact hu
    · exact lookupJob_isSome_of_filter _ _ _ hu
  rw [sched_s1_user_jobs]
  exact h u h2

theorem sched_s1_lookup_self (s : BotState) (uid : Nat) (hco : coherent s) :
    lookupJob (sched_s1 s uid).jobs (jobId uid) = none := by
  unfold sched_s1
  rcases hj : s.user_jobs uid with _ | jid
  · dsimp only
    rcases hl : lookupJob s.jobs (jobId uid) with _ | j
    · rfl
    · have h2 := hco uid (by rw [hl]; rfl)
      rw [h2] at hj
      cases hj
  · dsimp only
    by_cases he : jid = jobId uid
    · subst he
      exact lookupJob_remove s.jobs jid
    · rcases hl : lookupJob s.jobs (jobId uid) with _ | j
      · exact lookupJob_none_of_filter _ _ _ hl
      · have h2 := hco uid (by rw [hl]; rfl)
        rw [h2] at hj
        injection hj with h3
        exact absurd h3.symm he

theorem char_ne_colon_beq (c : Char) (h : c.toNat ≠ 58) :
    (c == ':') = false := by
  rw [beq_eq_false_iff_ne]
  intro he
  subst he
  exact h rfl

/-- A string accepted by the `valid_hhmm` regex parses to an in-range
hour/minute pair: exactly the values `CronTrigger` accepts.  This is the
bridge from the data-model invariant (stored times always valid HH:MM) to
scheduler success. -/
theorem valid_hhmm_parse (s : String) (h : valid_hhmm s = true) :
    ∃ hv mv, parse_hhmm s = some (hv, mv) ∧ hv ≤ 23 ∧ mv ≤ 59 := by
  unfold valid_hhmm at h
  unfold parse_hhmm
  revert h
  rcases s.data with _ | ⟨a, _ | ⟨b, _ | ⟨c, _ | ⟨d, _ | ⟨e, _ | ⟨f, l⟩⟩⟩⟩⟩⟩ <;>
    intro h
  · exact absurd h Bool.false_ne_true
  · exact absurd h Bool.false_ne_true
  · exact absurd h Bool.false_ne_true
  · exact absurd h Bool.false_ne_true
  · exact absurd h Bool.false_ne_true
  · simp only [Bool.and_eq_true, Bool.or_eq_true, beq_iff_eq,
      decide_eq_true_eq, isDig] at h
    obtain ⟨⟨hab, hcol⟩, hde⟩ := h
    have hcc : c = ':' := (char_eq_colon_iff c).mpr hcol
    subst hcc
    have hA : (a == ':') = false := char_ne_colon_beq a (by omega)
    have hB : (b == ':') = false := char_ne_colon_beq b (by omega)
    have hD : (d == ':') = false := char_ne_colon_beq d (by omega)
    have hE : (e == ':') = false := char_ne_colon_beq e (by omega)
    have hsp : splitColon [a, b, ':', d, e] = [[a, b], [d, e]] := by
      simp [splitColon, hA, hB, hD, hE]
    rw [hsp]
    dsimp only
    have hcond : ([a, b] ≠ [] ∧ [a, b].all isDig = true ∧
        [d, e] ≠ [] ∧ [d, e].all isDig = true) := by
      refine ⟨by simp, ?_, by simp, ?_⟩
      · simp only [List.all_cons, List.all_nil, Bool.and_eq_true,
          decide_eq_true_eq, isDig, and_true]
        omega
      · simp only [List.all_cons, List.all_nil, Bool.and_eq_true,
          decide_eq_true_eq, isDig, and_true]
        omega
    rw [if_pos hcond]
    refine ⟨digitsToNat [a, b] 0, digitsToNat [d, e] 0, rfl, ?_, ?_⟩
    · simp only [digitsToNat, digitVal]
      omega
    · simp only [digitsToNat, digitVal]
      omega
  · exact absurd h Bool.false_ne_true

theorem schedule_success_eq (cfg : Config) (s : BotState) (uid : Nat)
    (tz hhmm cadence : String) (dow : Option String) (hm mm : Nat) (z : String)
    (hp : parse_hhmm hhmm = some (hm, mm))
    (hr1 : hm ≤ 23) (hr2 : mm ≤ 59)
    (hz : zone_or_default cfg tz = Except.ok z)
    (hco : coherent s) :
    schedule_for_member cfg s uid tz hhmm cadence dow =
      ({ sched_s1 s uid with
          jobs := (sched_s1 s uid).jobs ++
            [⟨jobId uid, ⟨hm, mm, z, cron_dow cadence dow⟩, uid⟩],
          user_jobs := fun u =>
            if u = uid then some (jobId uid)
            else (sched_s1 s uid).user_jobs u }, none) := by
  unfold schedule_for_member
  rw [hp]
  dsimp only
  rw [hz]
  dsimp only
  rw [if_pos (⟨hr1, hr2⟩ : hm ≤ 23 ∧ mm ≤ 59)]
  rw [sched_s1_lookup_self s uid hco]

theorem countJobs_le_one (s : BotState) (h : jobsNodup s) (u : Nat) :
    countJobs s u ≤ 1 := by
  have h1 : (s.jobs.map Job.id).count (jobId u) = countJobs s u := by
    rw [List.count_eq_countP, List.countP_map, List.countP_eq_length_filter]
    rfl
  rw [← h1]
  exact List.nodup_iff_count_le_one.mp h _

theorem success_state_inv (s : BotState) (uid : Nat)
    (trig : Trigger) (hnd : jobsNodup s) (hco : coherent s)
    (hl : lookupJob (sched_s1 s uid).jobs (jobId uid) = none) :
    jobsNodup ({ sched_s1 s uid with
        jobs := (sched_s1 s uid).jobs ++ [⟨jobId uid, trig, uid⟩],
        user_jobs := fun u =>
          if u = uid then some (jobId uid)
          else (sched_s1 s uid).user_jobs u } : BotState) ∧
    coherent ({ sched_s1 s uid with
        jobs := (sched_s1 s uid).jobs ++ [⟨jobId uid, trig, uid⟩],
        user_jobs := fun u =>
          if u = uid then some (jobId uid)
          else (sched_s1 s uid).user_jobs u } : BotState) := by
  have hnd1 := jobsNodup_sched_s1 s uid hnd
  have hco1 := coherent_sched_s1 s uid hco
  constructor
  · show (((sched_s1 s uid).jobs ++
        [(⟨jobId uid, trig, uid⟩ : Job)]).map Job.id).Nodup
    rw [List.map_append]
    rw [List.nodup_append]
    refine ⟨hnd1, by simp, ?_⟩
    intro a ha hb
    simp only [List.map_cons, List.map_nil, List.mem_singleton] at hb
    subst hb
    exact not_mem_of_lookupJob_none _ _ hl ha
  · intro u hu
    by_cases h : u = uid
    · subst h
      simp
    · have hu2 : (lookupJob (sched_s1 s uid).jobs (jobId u)).isSome := by
        change ((((sched_s1 s uid).jobs ++
            [(⟨jobId uid, trig, uid⟩ : Job)]).find?
            (fun j => j.id == jobId u)).isSome = true) at hu
        rw [List.find?_append] at hu
        rcases hx : (sched_s1 s uid).jobs.find? (fun j => j.id == jobId u)
          with _ | j
        · rw [hx] at hu
          exfalso
          have hfalse : ((⟨jobId uid, trig, uid⟩ : Job).id == jobId u)
              = false := by
            simp only [jobId, beq_eq_false_iff_ne, ne_eq]
            omega
          rw [List.find?_singleton, hfalse] at hu
          simp at hu
        · rw [lookupJob, hx]
          rfl
      have h2 := hco1 u hu2
      show (if u = uid then some (jobId uid)
        else (sched_s1 s uid).user_jobs u) = some (jobId u)
      rw [if_neg h]
      exact h2

theorem unschedule_user_inv (s : BotState) (uid : Nat)
    (hnd : jobsNodup s) (hco : coherent s) :
    jobsNodup (unschedule_user s uid) ∧ coherent (unschedule_user s uid) := by
  unfold unschedule_user
  rcases hj : s.user_jobs uid with _ | jid
  · exact ⟨hnd, hco⟩
  · dsimp only
    constructor
    · exact hnd.sublist (List.Sublist.map Job.id (List.filter_sublist _))
    · intro u hu
      by_cases h : u = uid
      · subst h
        exfalso
        have h2 := hco u (lookupJob_isSome_of_filter _ _ _ hu)
        rw [h2] at hj
        injection hj with h3
        rw [← h3] at hu
        rw [lookupJob_remove] at hu
        exact absurd hu (by decide)
      · have h2 := hco u (lookupJob_isSome_of_filter _ _ _ hu)
        show (if u = uid then none else s.user_jobs u) = some (jobId u)
        rw [if_neg h]
        exact h2

theorem stepSched_inv (cfg : Config) (s : BotState) (op : SchedOp)
    (hnd : jobsNodup s) (hco : coherent s) :
    jobsNodup (stepSched cfg s op) ∧ coherent (stepSched cfg s op) := by
  cases op with
  | sched uid tz hhmm cadence dow =>
      show jobsNodup (schedule_for_member cfg s uid tz hhmm cadence dow).1 ∧
        coherent (schedule_for_member cfg s uid tz hhmm cadence dow).1
      unfold schedule_for_member
      rcases hp : parse_hhmm hhmm with _ | ⟨hm, mm⟩
      · exact ⟨jobsNodup_sched_s1 s uid hnd, coherent_sched_s1 s uid hco⟩
      · dsimp only
        rcases hz : zone_or_default cfg tz with e | z
        · exact ⟨jobsNodup_sched_s1 s uid hnd, coherent_sched_s1 s uid hco⟩
        · dsimp only
          by_cases hr : hm ≤ 23 ∧ mm ≤ 59
          · rw [if_pos hr]
            rcases hl : lookupJob (sched_s1 s uid).jobs (jobId uid) with _ | j
            · dsimp only
              exact success_state_inv s uid ⟨hm, mm, z, cron_dow cadence dow⟩
                hnd hco hl
            · exact ⟨jobsNodup_sched_s1 s uid hnd,
                coherent_sched_s1 s uid hco⟩
          · rw [if_neg hr]
            exact ⟨jobsNodup_sched_s1 s uid hnd, coherent_sched_s1 s uid hco⟩
  | unsched uid => exact unschedule_user_inv s uid hnd hco

theorem runSched_inv (cfg : Config) (ops : List SchedOp) :
    ∀ s : BotState, jobsNodup s → coherent s →
      jobsNodup (runSched cfg ops s) ∧ coherent (runSched cfg ops s) := by
  induction ops with
  | nil => exact fun s h1 h2 => ⟨h1, h2⟩
  | cons op rest ih =>
      intro s h1 h2
      have h3 := stepSched_inv cfg s op h1 h2
      exact ih _ h3.1 h3.2

theorem schedule_success_props (cfg : Config) (s : BotState) (uid : Nat)
    (tz hhmm cadence : String) (dow : Option String) (hm mm : Nat) (z : String)
    (hp : parse_hhmm hhmm = some (hm, mm))
    (hr1 : hm ≤ 23) (hr2 : mm ≤ 59)
    (hz : zone_or_default cfg tz = Except.ok z)
    (hco : coherent s) :
    countJobs (schedule_for_member cfg s uid tz hhmm cadence dow).1 uid = 1 ∧
    lookupJob (schedule_for_member cfg s uid tz hhmm cadence dow).1.jobs
        (jobId uid)
      = some ⟨jobId uid, ⟨hm, mm, z, cron_dow cadence dow⟩, uid⟩ ∧
    (schedule_for_member cfg s uid tz hhmm cadence dow).2 = none := by
  rw [schedule_success_eq cfg s uid tz hhmm cadence dow hm mm z hp hr1 hr2
    hz hco]
  have hl := sched_s1_lookup_self s uid hco
  refine ⟨?_, ?_, rfl⟩
  · show (((sched_s1 s uid).jobs ++
        [(⟨jobId uid, ⟨hm, mm, z, cron_dow cadence dow⟩, uid⟩ : Job)]).filter
        (fun j => j.id == jobId uid)).length = 1
    rw [List.filter_append, filter_id_nil_of_lookup_none _ _ hl]
    simp
  · show ((sched_s1 s uid).jobs ++
        [(⟨jobId uid, ⟨hm, mm, z, cron_dow cadence dow⟩, uid⟩ : Job)]).find?
        (fun j => j.id == jobId uid)
      = some (⟨jobId uid, ⟨hm, mm, z, cron_dow cadence dow⟩, uid⟩ : Job)
    rw [List.find?_append]
    rw [show (sched_s1 s uid).jobs.find? (fun j => j.id == jobId uid) = none
      from hl]
    simp

/-- C3: (a) along every sequence of schedule and unschedule operations from a
state satisfying the scheduler invariants — with no constraint at all on the
operations' arguments — every member identity has at most one live trigger;
(b) scheduling the same identity twice in a row (the first call arbitrary,
the second with a valid HH:MM time per the schedule operation's input
constraint, and a resolvable zone) leaves exactly one live trigger for it,
carrying the second call's parameters (the second call supersedes the
first); (c) unscheduling an identity whose job is recorded removes both the
`user_jobs` entry and every trigger of that identity. -/
theorem at_most_one_trigger (cfg : Config) (s : BotState)
    (hnd : jobsNodup s) (hco : coherent s) :
    (∀ ops : List SchedOp, ∀ u : Nat,
        countJobs (runSched cfg ops s) u ≤ 1) ∧
    (∀ (uid : Nat) (tz hhmm cadence : String) (dow : Option String)
        (tz2 hhmm2 cadence2 : String) (dow2 : Option String) (z2 : String),
      valid_hhmm hhmm2 = true →
      zone_or_default cfg tz2 = Except.ok z2 →
      countJobs (runSched cfg [SchedOp.sched uid tz hhmm cadence dow,
          SchedOp.sched uid tz2 hhmm2 cadence2 dow2] s) uid = 1 ∧
      (∃ hm2 mm2, parse_hhmm hhmm2 = some (hm2, mm2) ∧
        lookupJob (runSched cfg [SchedOp.sched uid tz hhmm cadence dow,
            SchedOp.sched uid tz2 hhmm2 cadence2 dow2] s).jobs (jobId uid)
          = some ⟨jobId uid, ⟨hm2, mm2, z2, cron_dow cadence2 dow2⟩, uid⟩)) ∧
    (∀ uid jid, s.user_jobs uid = some jid →
      (unschedule_user s uid).user_jobs uid = none ∧
      countJobs (unschedule_user s uid) uid = 0) := by
  refine ⟨?_, ?_, ?_⟩
  · intro ops u
    exact countJobs_le_one _ (runSched_inv cfg ops s hnd hco).1 u
  · intro uid tz hhmm cadence dow tz2 hhmm2 cadence2 dow2 z2 hval2 hz2
    obtain ⟨hm2, mm2, hp2, hr1, hr2⟩ := valid_hhmm_parse hhmm2 hval2
    have h1 := stepSched_inv cfg s (SchedOp.sched uid tz hhmm cadence dow)
      hnd hco
    have h2 := schedule_success_props cfg
      (stepSched cfg s (SchedOp.sched uid tz hhmm cadence dow)) uid
      tz2 hhmm2 cadence2 dow2 hm2 mm2 z2 hp2 hr1 hr2 hz2 h1.2
    exact ⟨h2.1, hm2, mm2, hp2, h2.2.1⟩
  · intro uid jid hj
    constructor
    · unfold unschedule_user
      rw [hj]
      simp
    · unfold unschedule_user
      rw [hj]
      dsimp only
      rcases hl : lookupJob s.jobs (jobId uid) with _ | j
      · show ((remove_job s.jobs jid).filter
            (fun j => j.id == jobId uid)).length = 0
        rw [filter_id_nil_of_lookup_none _ _
          (lookupJob_none_of_filter _ _ _ hl)]
        rfl
      · have h2 := hco uid (by rw [hl]; rfl)
        rw [h2] at hj
        injection hj with h3
        rw [← h3]
        show ((remove_job s.jobs (jobId uid)).filter
            (fun j => j.id == jobId uid)).length = 0
        rw [filter_id_nil_of_lookup_none _ _ (lookupJob_remove _ _)]
        rfl

/-- Closed witness for `at_most_one_trigger`, on the single-member state with
its trigger installed: the sequence bound, double scheduling (daily then
weekly) superseding, and unscheduling. -/
theorem at_most_one_trigger_witness :
    (countJobs (runSched cfgW [SchedOp.sched 1 "Europe/London" "07:30" "daily" none,
        SchedOp.sched 1 "Europe/London" "08:15" "weekly" (some "tue")] s0C1) 1 ≤ 1) ∧
    countJobs (runSched cfgW [SchedOp.sched 1 "Europe/London" "07:30" "daily" none,
        SchedOp.sched 1 "Europe/London" "08:15" "weekly" (some "tue")] s0C1) 1 = 1 ∧
    lookupJob (runSched cfgW [SchedOp.sched 1 "Europe/London" "07:30" "daily" none,
        SchedOp.sched 1 "Europe/London" "08:15" "weekly" (some "tue")] s0C1).jobs
        (jobId 1)
      = some ⟨1, ⟨8, 15, "Europe/London", some "tue"⟩, 1⟩ ∧
    (unschedule_user s0C1 1).user_jobs 1 = none ∧
    countJobs (unschedule_user s0C1 1) 1 = 0 := by
  have hnd : jobsNodup s0C1 := by
    unfold jobsNodup
    decide
  have hco : coherent s0C1 := by
    intro u hu
    by_cases h : u = 1
    · subst h
      decide
    · exfalso
      have hnone : lookupJob s0C1.jobs (jobId u) = none := by
        change List.find? (fun j => j.id == jobId u)
          [(⟨1, ⟨9, 0, "America/Chicago", some "fri"⟩, 1⟩ : Job)] = none
        rw [List.find?_singleton]
        rw [show ((⟨1, ⟨9, 0, "America/Chicago", some "fri"⟩, 1⟩ : Job).id
            == jobId u) = false from by
          simp only [jobId, beq_eq_false_iff_ne, ne_eq]
          omega]
        rfl
      rw [hnone] at hu
      exact absurd hu (by decide)
  have h := at_most_one_trigger cfgW s0C1 hnd hco
  have ha := h.1 [SchedOp.sched 1 "Europe/London" "07:30" "daily" none,
    SchedOp.sched 1 "Europe/London" "08:15" "weekly" (some "tue")] 1
  have hb := h.2.1 1 "Europe/London" "07:30" "daily" none
    "Europe/London" "08:15" "weekly" (some "tue") "Europe/London"
    (by decide) rfl
  have hc := h.2.2 1 1 (by decide)
  obtain ⟨hb1, hm2, mm2, hp2, hlk⟩ := hb
  have h815 : (some ((8 : Nat), (15 : Nat)) : Option (Nat × Nat))
      = some (hm2, mm2) := by
    rw [← hp2]
    decide
  injection h815 with h3
  have h4 : 8 = hm2 := congrArg Prod.fst h3
  have h5 : 15 = mm2 := congrArg Prod.snd h3
  subst h4
  subst h5
  exact ⟨ha, hb1, hlk.trans (by decide), hc.1, hc.2⟩

/-! ### Startup rescheduling (claim C2) -/

/-- C2 counterexample: `reschedule_all` over two approved members, the first
with a corrupted stored time — unparseable `"bad"`, or `"99:00"` which
parses but fails `CronTrigger`'s hour range — raises out of the enumeration:
the second, fully valid member is left unscheduled (no job installed at
all), so the enumeration does not tolerate a per-member scheduling
failure. -/
theorem reschedule_all_abort_counterexample :
    ((reschedule_all cfgW sC2).2.isSome = true ∧
     (reschedule_all cfgW sC2).1.jobs = [] ∧
     countJobs (reschedule_all cfgW sC2).1 2 = 0) ∧
    ((reschedule_all cfgW sC2b).2.isSome = true ∧
     (reschedule_all cfgW sC2b).1.jobs = [] ∧
     countJobs (reschedule_all cfgW sC2b).1 2 = 0) := by
  exact ⟨⟨by decide, by decide, by decide⟩, ⟨by decide, by decide, by decide⟩⟩

theorem zone_or_default_ok (cfg : Config) (tz : String)
    (hdz : cfg.validZone cfg.default_tz = true) :
    zone_or_default cfg tz =
      Except.ok (if cfg.validZone tz then tz else cfg.default_tz) := by
  unfold zone_or_default ensure_zoneinfo
  by_cases h : cfg.validZone tz = true
  · rw [if_pos h, if_pos h]
  · rw [if_neg h, if_neg h]
    dsimp only
    rw [if_pos hdz]

/-- Scheduling a member who has no recorded job and no installed job: the
cancel phase is a no-op and the install succeeds. -/
theorem schedule_fresh_eq (cfg : Config) (s : BotState) (uid : Nat)
    (tz hhmm cadence : String) (dow : Option String) (hv mv : Nat)
    (hp : parse_hhmm hhmm = some (hv, mv))
    (hr1 : hv ≤ 23) (hr2 : mv ≤ 59)
    (hdz : cfg.validZone cfg.default_tz = true)
    (hu : s.user_jobs uid = none)
    (hl : lookupJob s.jobs (jobId uid) = none) :
    schedule_for_member cfg s uid tz hhmm cadence dow =
      ({ s with
          jobs := s.jobs ++ [⟨jobId uid,
            ⟨hv, mv, if cfg.validZone tz then tz else cfg.default_tz,
             cron_dow cadence dow⟩, uid⟩],
          user_jobs := fun u =>
            if u = uid then some (jobId uid) else s.user_jobs u }, none) := by
  have hs1 : sched_s1 s uid = s := by
    unfold sched_s1
    rw [hu]
  unfold schedule_for_member
  rw [hp]
  dsimp only
  rw [zone_or_default_ok cfg tz hdz]
  dsimp only
  rw [if_pos (⟨hr1, hr2⟩ : hv ≤ 23 ∧ mv ≤ 59)]
  rw [hs1, hl]

theorem lookupJob_append_singleton_ne (jobs : List Job) (J : Job) (i : Nat)
    (h : (J.id == i) = false) :
    lookupJob (jobs ++ [J]) i = lookupJob jobs i := by
  rw [lookupJob, lookupJob, List.find?_append, List.find?_singleton, h]
  cases List.find? (fun j => j.id == i) jobs <;> rfl

theorem lookupJob_append_singleton_self (jobs : List Job) (J : Job) (i : Nat)
    (hnone : lookupJob jobs i = none) (h : (J.id == i) = true) :
    lookupJob (jobs ++ [J]) i = some J := by
  rw [lookupJob, List.find?_append]
  rw [show List.find? (fun j => j.id == i) jobs = none from hnone]
  rw [List.find?_singleton, h]
  rfl

/-- The expected trigger installed for a member by `reschedule_all`. -/
def expectedJob (cfg : Config) (m : MemberRow) (hv mv : Nat) : Job :=
  ⟨jobId m.user_id,
   ⟨hv, mv, if cfg.validZone m.tz then m.tz else cfg.default_tz,
    cron_dow m.cadence m.dow⟩, m.user_id⟩

theorem reschedule_all_go_ok (cfg : Config)
    (hdz : cfg.validZone cfg.default_tz = true) :
    ∀ (ms : List MemberRow) (s : BotState),
      (∀ m ∈ ms, valid_hhmm m.hhmm = true) →
      (ms.map MemberRow.user_id).Nodup →
      (∀ m ∈ ms, s.user_jobs m.user_id = none) →
      (∀ m ∈ ms, lookupJob s.jobs (jobId m.user_id) = none) →
      (reschedule_all_go cfg ms s).2 = none ∧
      (∀ m ∈ ms, ∃ hv mv, parse_hhmm m.hhmm = some (hv, mv) ∧
        lookupJob (reschedule_all_go cfg ms s).1.jobs (jobId m.user_id)
          = some (expectedJob cfg m hv mv)) ∧
      (∀ i : Nat, (∀ m ∈ ms, jobId m.user_id ≠ i) →
        lookupJob (reschedule_all_go cfg ms s).1.jobs i
          = lookupJob s.jobs i) := by
  intro ms
  induction ms with
  | nil =>
      intro s _ _ _ _
      exact ⟨rfl, by simp, fun i _ => rfl⟩
  | cons m rest ih =>
      intro s hparse hids hu hl
      obtain ⟨hv, mv, hp, hr1, hr2⟩ := valid_hhmm_parse m.hhmm
        (hparse m (List.mem_cons_self m rest))
      have heq := schedule_fresh_eq cfg s m.user_id m.tz m.hhmm m.cadence
        m.dow hv mv hp hr1 hr2 hdz (hu m (List.mem_cons_self m rest))
        (hl m (List.mem_cons_self m rest))
      have hnotin : m.user_id ∉ rest.map MemberRow.user_id :=
        (List.nodup_cons.mp hids).1
      have hne : ∀ m' ∈ rest, m'.user_id ≠ m.user_id := by
        intro m' hm' he
        exact hnotin (he ▸ List.mem_map_of_mem MemberRow.user_id hm')
      have hSju : (∀ m' ∈ rest,
          ({ s with
              jobs := s.jobs ++ [expectedJob cfg m hv mv],
              user_jobs := fun u =>
                if u = m.user_id then some (jobId m.user_id)
                else s.user_jobs u } : BotState).user_jobs m'.user_id
            = none) := by
        intro m' hm'
        show (if m'.user_id = m.user_id then some (jobId m.user_id)
          else s.user_jobs m'.user_id) = none
        rw [if_neg (hne m' hm')]
        exact hu m' (List.mem_cons_of_mem m hm')
      have hSjl : (∀ m' ∈ rest,
          lookupJob (s.jobs ++ [expectedJob cfg m hv mv])
            (jobId m'.user_id) = none) := by
        intro m' hm'
        rw [lookupJob_append_singleton_ne _ _ _
          (by
            simp only [expectedJob, jobId, beq_eq_false_iff_ne, ne_eq]
            exact fun e => hne m' hm' e.symm)]
        exact hl m' (List.mem_cons_of_mem m hm')
      have hrest := ih ({ s with
          jobs := s.jobs ++ [expectedJob cfg m hv mv],
          user_jobs := fun u =>
            if u = m.user_id then some (jobId m.user_id)
            else s.user_jobs u } : BotState)
        (fun m' hm' => hparse m' (List.mem_cons_of_mem m hm'))
        (List.nodup_cons.mp hids).2 hSju hSjl
      have hgo : reschedule_all_go cfg (m :: rest) s
          = reschedule_all_go cfg rest ({ s with
              jobs := s.jobs ++ [expectedJob cfg m hv mv],
              user_jobs := fun u =>
                if u = m.user_id then some (jobId m.user_id)
                else s.user_jobs u } : BotState) := by
        show (match schedule_for_member cfg s m.user_id m.tz m.hhmm m.cadence
            m.dow with
          | (s1, some e) => (s1, some e)
          | (s1, none) => reschedule_all_go cfg rest s1)
          = reschedule_all_go cfg rest _
        rw [heq]
        rfl
      refine ⟨?_, ?_, ?_⟩
      · rw [hgo]
        exact hrest.1
      · intro m' hm'
        rcases List.mem_cons.mp hm' with he | hm''
        · subst he
          refine ⟨hv, mv, hp, ?_⟩
          rw [hgo, hrest.2.2 (jobId m'.user_id)
            (fun m'' hm'' he2 => (hne m'' hm'') (by simpa [jobId] using he2))]
          exact lookupJob_append_singleton_self _ _ _
            (hl m' (List.mem_cons_self m' rest)) (by simp [expectedJob, jobId])
        · obtain ⟨hv2, mv2, hp2, hlk⟩ := hrest.2.1 m' hm''
          refine ⟨hv2, mv2, hp2, ?_⟩
          rw [hgo]
          exact hlk
      · intro i hi
        rw [hgo, hrest.2.2 i (fun m'' hm'' => hi m'' (List.mem_cons_of_mem m hm''))]
        exact lookupJob_append_singleton_ne _ _ _
          (by simpa [expectedJob, jobId] using hi m (List.mem_cons_self m rest))

/-- C2 (amended): from a startup state (fresh scheduler, empty job table),
when every approved member's stored time is a valid 24-hour HH:MM string
(the data-model invariant on the hhmm column), `reschedule_all` raises
nothing and installs a trigger for EVERY approved member; in particular a
member with an invalid or corrupted timezone causes no failure at all —
their trigger is installed under the default zone — and every other valid
member is scheduled.  (A corrupted stored time, by contrast, aborts the
remaining enumeration: see the counterexample.) -/
theorem reschedule_all_schedules_every_member (cfg : Config) (s : BotState)
    (hdz : cfg.validZone cfg.default_tz = true)
    (hjobs : s.jobs = [])
    (huj : ∀ u, s.user_jobs u = none)
    (hids : ((get_active_members_full s).map MemberRow.user_id).Nodup)
    (hvalid : ∀ m ∈ get_active_members_full s, valid_hhmm m.hhmm = true) :
    (reschedule_all cfg s).2 = none ∧
    ∀ m ∈ get_active_members_full s, ∃ hv mv,
      parse_hhmm m.hhmm = some (hv, mv) ∧
      lookupJob (reschedule_all cfg s).1.jobs (jobId m.user_id)
        = some (expectedJob cfg m hv mv) := by
  have h := reschedule_all_go_ok cfg hdz (get_active_members_full s) s
    hvalid hids (fun m _ => huj m.user_id)
    (fun m _ => by rw [show lookupJob s.jobs (jobId m.user_id)
      = lookupJob [] (jobId m.user_id) from by rw [hjobs]]; rfl)
  exact ⟨h.1, h.2.1⟩

/-- Closed witness for `reschedule_all_schedules_every_member`: two approved
members, the first with an invalid timezone; both end up scheduled, the first
under the default zone. -/
theorem reschedule_all_schedules_every_member_witness :
    (reschedule_all cfgW sW2).2 = none ∧
    lookupJob (reschedule_all cfgW sW2).1.jobs 1
      = some ⟨1, ⟨7, 0, "America/Chicago", none⟩, 1⟩ ∧
    lookupJob (reschedule_all cfgW sW2).1.jobs 2
      = some ⟨2, ⟨8, 0, "Europe/London", some "fri"⟩, 2⟩ := by
  have h := reschedule_all_schedules_every_member cfgW sW2 (by decide) rfl
    (fun u => rfl) (by decide) (by decide)
  refine ⟨h.1, ?_, ?_⟩
  · obtain ⟨hv, mv, hp, hlk⟩ :=
      h.2 ⟨1, "Not/AZone", "07:00", 1, "daily", none⟩ (by decide)
    have h70 : (some ((7 : Nat), (0 : Nat)) : Option (Nat × Nat))
        = some (hv, mv) := by
      rw [← hp]
      decide
    injection h70 with h3
    have h4 : 7 = hv := congrArg Prod.fst h3
    have h5 : 0 = mv := congrArg Prod.snd h3
    subst h4
    subst h5
    exact hlk.trans (by decide)
  · obtain ⟨hv, mv, hp, hlk⟩ :=
      h.2 ⟨2, "Europe/London", "08:00", 1, "weekly", some "fri"⟩ (by decide)
    have h80 : (some ((8 : Nat), (0 : Nat)) : Option (Nat × Nat))
        = some (hv, mv) := by
      rw [← hp]
      decide
    injection h80 with h3
    have h4 : 8 = hv := congrArg Prod.fst h3
    have h5 : 0 = mv := congrArg Prod.snd h3
    subst h4
    subst h5
    exact hlk.trans (by decide)

end AccBot
